import Mathlib

/-
Verification development for the vector library's coordinate abstraction and
dimensional-promotion/demotion engine (scikit-hep/vector).

The repository snapshot ships only documentation (README, docs notebooks,
changelog); the Python compute modules themselves are not present.  All
behavioural definitions below are therefore shallow embeddings modelled from
the specification (spec.md sections 3, 4.1-4.5, 7, 8) and the README's
documented behaviour, with real numbers standing for the floating-point
values.  Each such definition carries a doc comment naming the spec rule it
embeds.
-/

noncomputable section

namespace VectorSpec

/-- Modelled from the spec: missing module vector._compute.lorentz.tau.
Section 4.2, temporal conversions from T: tau is the signed proper time,
tau = sign(t^2 - mag^2) * sqrt(abs(t^2 - mag^2)), so that a spacelike
vector (mag^2 greater than t^2) yields a negative tau. -/
def tau_from_t (t mag2 : ℝ) : ℝ :=
  if t ^ 2 - mag2 < 0 then -Real.sqrt (mag2 - t ^ 2) else Real.sqrt (t ^ 2 - mag2)

/-- Modelled from the spec: missing module vector._compute.lorentz.t.
Section 4.2, temporal conversions from Tau: for tau at least 0 (timelike or
null) t = sqrt(tau^2 + mag^2); for tau negative (spacelike by convention)
t = sqrt(mag^2 - tau^2).  The reconstructed t is clamped to be non-negative
(Real.sqrt already returns 0 on negative input, which realises the
documented truncation of wrong-direction timelike vectors stored with
tau less than -mag). -/
def t_from_tau (tau mag2 : ℝ) : ℝ :=
  if tau < 0 then Real.sqrt (mag2 - tau ^ 2) else Real.sqrt (tau ^ 2 + mag2)

/-- IEEE-style value lattice for the eta accessor: an ordinary real, a signed
infinity, or NaN.  Used to model the spec's total-function policy (section 7):
domain violations produce NaN or signed infinity, never an exception. -/
inductive FP where
  | nan : FP
  | pinf : FP
  | ninf : FP
  | fin : ℝ → FP

/-- Modelled from the spec: the regular branch of eta from longitudinal kind Z,
eta = -ln(tan(theta/2)) with theta = atan2(rho, z) (section 4.2); written with
arccos of z over the spatial magnitude, which agrees with atan2(rho, z) for
rho nonnegative. -/
def eta_fin (rho z : ℝ) : ℝ :=
  -Real.log (Real.tan (Real.arccos (z / Real.sqrt (rho ^ 2 + z ^ 2)) / 2))

/-- Modelled from the spec: missing module vector._compute.spatial.eta for
longitudinal kind Z (section 4.2): if z is NaN the result is NaN; if rho = 0
and z is a nonzero real the result is a signed infinity by the sign of z;
rho = 0 and z = 0 is the only true singularity and yields NaN; otherwise the
finite formula applies.  The function is total: every input produces a value,
never an exception. -/
def eta_from_z (rho : ℝ) : FP → FP
  | FP.nan => FP.nan
  | FP.pinf => FP.pinf
  | FP.ninf => FP.ninf
  | FP.fin z =>
    if rho = 0 then
      if z = 0 then FP.nan else if 0 < z then FP.pinf else FP.ninf
    else FP.fin (eta_fin rho z)

/-- Azimuthal coordinate kinds and their stored fields (spec section 3):
XY stores x and y, RhoPhi stores rho and phi. -/
inductive Azimuthal where
  | xy : ℝ → ℝ → Azimuthal
  | rhophi : ℝ → ℝ → Azimuthal

/-- Longitudinal coordinate kinds (spec section 3): Z stores z, Theta stores
theta, Eta stores eta. -/
inductive Longitudinal where
  | z : ℝ → Longitudinal
  | theta : ℝ → Longitudinal
  | eta : ℝ → Longitudinal

/-- Temporal coordinate kinds (spec section 3): T stores t, Tau stores the
signed proper time tau. -/
inductive Temporal where
  | t : ℝ → Temporal
  | tau : ℝ → Temporal

/-- Geometric versus momentum flavor of a vector (spec section 3). -/
inductive Flavor where
  | geometric : Flavor
  | momentum : Flavor
deriving DecidableEq

/-- Modelled from the spec: flavor infection rule (section 4.4 rule 3), the
result of a binary operation is momentum-flavored iff either operand is. -/
def Flavor.join : Flavor → Flavor → Flavor
  | Flavor.momentum, _ => Flavor.momentum
  | _, Flavor.momentum => Flavor.momentum
  | _, _ => Flavor.geometric

/-- A vector instance (spec section 3): an azimuthal payload, an optional
longitudinal payload (present iff the dimension is at least 3), an optional
temporal payload (present iff the dimension is 4), and a flavor. -/
structure Vec where
  az : Azimuthal
  lon : Option Longitudinal
  tem : Option Temporal
  flavor : Flavor

/-- Well-formedness invariant of a vector instance (spec section 3):
a temporal payload is only present together with a longitudinal one. -/
def Vec.Wf (v : Vec) : Prop := v.lon = none → v.tem = none

/-- Modelled from the spec: azimuthal conversions (section 4.2), x from
either azimuthal kind. -/
def Azimuthal.x : Azimuthal → ℝ
  | Azimuthal.xy x _ => x
  | Azimuthal.rhophi rho phi => rho * Real.cos phi

/-- Modelled from the spec: azimuthal conversions (section 4.2), y from
either azimuthal kind. -/
def Azimuthal.y : Azimuthal → ℝ
  | Azimuthal.xy _ y => y
  | Azimuthal.rhophi rho phi => rho * Real.sin phi

/-- Modelled from the spec: azimuthal conversions (section 4.2), rho from
either azimuthal kind (native passthrough for RhoPhi). -/
def Azimuthal.rho : Azimuthal → ℝ
  | Azimuthal.xy x y => Real.sqrt (x ^ 2 + y ^ 2)
  | Azimuthal.rhophi rho _ => rho

/-- Modelled from the spec: azimuthal conversions (section 4.2), rho squared,
computed directly per kind to avoid a detour. -/
def Azimuthal.rho2 : Azimuthal → ℝ
  | Azimuthal.xy x y => x ^ 2 + y ^ 2
  | Azimuthal.rhophi rho _ => rho ^ 2

/-- Modelled from the spec: longitudinal conversions (section 4.2), z from
any longitudinal kind given rho: native for Z, rho * cot(theta) for Theta,
rho * sinh(eta) for Eta. -/
def Longitudinal.zval (rho : ℝ) : Longitudinal → ℝ
  | Longitudinal.z zz => zz
  | Longitudinal.theta th => rho / Real.tan th
  | Longitudinal.eta et => rho * Real.sinh et

/-- The z coordinate of a vector, 0 when no longitudinal payload is stored
(used by the zero-imputing asymmetric operations, spec section 4.4 rule 1). -/
def Vec.zval (v : Vec) : ℝ :=
  match v.lon with
  | some l => l.zval v.az.rho
  | none => 0

/-- Modelled from the spec: mag2 = rho2 + z^2 (section 4.2 derived-only
computations). -/
def Vec.mag2 (v : Vec) : ℝ := v.az.rho2 + v.zval ^ 2

/-- Modelled from the spec: t from either temporal kind given mag2
(section 4.2): native for T, the documented conversion for Tau. -/
def Temporal.tval (mag2 : ℝ) : Temporal → ℝ
  | Temporal.t tt => tt
  | Temporal.tau ta => t_from_tau ta mag2

/-- The t coordinate of a vector, 0 when no temporal payload is stored. -/
def Vec.tval (v : Vec) : ℝ :=
  match v.tem with
  | some tm => tm.tval v.mag2
  | none => 0

/-- Modelled from the spec: tau from either temporal kind given mag2
(section 4.2): the signed formula for T, native passthrough for Tau. -/
def Temporal.tauval (mag2 : ℝ) : Temporal → ℝ
  | Temporal.t tt => tau_from_t tt mag2
  | Temporal.tau ta => ta

/-- The tau coordinate of a vector, 0 when no temporal payload is stored. -/
def Vec.tauval (v : Vec) : ℝ :=
  match v.tem with
  | some tm => tm.tauval v.mag2
  | none => 0

/-- Dimension of a vector instance (spec section 3): 2, 3 or 4 according to
which payloads are present. -/
def Vec.dim (v : Vec) : ℕ :=
  match v.lon, v.tem with
  | none, _ => 2
  | some _, none => 3
  | some _, some _ => 4

/-- Modelled from the spec: add (sections 4.4 and 4.5).  The result is
demoted to the lowest common dimension, discarding the higher-dimensional
operand's extra slices; it is stored in Cartesian-like XY/Z/T coordinates
(the default for computed results); its flavor is the infection join. -/
def Vec.add (a b : Vec) : Vec :=
  { az := Azimuthal.xy (a.az.x + b.az.x) (a.az.y + b.az.y)
    lon :=
      match a.lon, b.lon with
      | some _, some _ => some (Longitudinal.z (a.zval + b.zval))
      | _, _ => none
    tem :=
      match a.tem, b.tem with
      | some _, some _ => some (Temporal.t (a.tval + b.tval))
      | _, _ => none
    flavor := a.flavor.join b.flavor }

/-- Modelled from the spec: subtract (sections 4.4 rule 1 and 8 scenario 5).
When the second operand has the lower dimension, the missing slices of the
second operand are imputed as zero and the result keeps the first operand's
spatial dimension (temporal is kept only when both operands supply it, so a
4D minus a 2D or 3D vector is 3D); otherwise the result is demoted to the
lowest common dimension as for add.  Stored Cartesian, flavor infected. -/
def Vec.subtract (a b : Vec) : Vec :=
  { az := Azimuthal.xy (a.az.x - b.az.x) (a.az.y - b.az.y)
    lon :=
      if b.dim < a.dim then some (Longitudinal.z (a.zval - b.zval))
      else
        match a.lon, b.lon with
        | some _, some _ => some (Longitudinal.z (a.zval - b.zval))
        | _, _ => none
    tem :=
      match a.tem, b.tem with
      | some _, some _ => some (Temporal.t (a.tval - b.tval))
      | _, _ => none
    flavor := a.flavor.join b.flavor }

/-- Modelled from the spec: the azimuthal part of the dot product
(section 4.5): the direct same-kind formula when both operands are RhoPhi,
otherwise the Cartesian formula on converted coordinates. -/
def azdot : Azimuthal → Azimuthal → ℝ
  | Azimuthal.rhophi r1 p1, Azimuthal.rhophi r2 p2 => r1 * r2 * Real.cos (p1 - p2)
  | a, b => a.x * b.x + a.y * b.y

/-- Modelled from the spec: dot (section 4.5), computed at the lowest common
dimension: the z term is included only when both operands store a
longitudinal payload, and when both operands are 4D the Lorentz-vector
metric t1 t2 - (spatial dot) is used. -/
def Vec.dot (a b : Vec) : ℝ :=
  (match a.tem, b.tem with
   | some _, some _ =>
     a.tval * b.tval -
       (azdot a.az b.az +
         (match a.lon, b.lon with
          | some _, some _ => a.zval * b.zval
          | _, _ => 0))
   | _, _ =>
     azdot a.az b.az +
       (match a.lon, b.lon with
        | some _, some _ => a.zval * b.zval
        | _, _ => 0))

/-- Modelled from the spec: cross (section 4.5): the right-hand-rule
3D cross product; the result is strictly 3-dimensional with no temporal
payload even when an operand is 4D; missing z slices are imputed as zero. -/
def Vec.cross (a b : Vec) : Vec :=
  { az := Azimuthal.xy (a.az.y * b.zval - a.zval * b.az.y)
            (a.zval * b.az.x - a.az.x * b.zval)
    lon := some (Longitudinal.z (a.az.x * b.az.y - a.az.y * b.az.x))
    tem := none
    flavor := a.flavor.join b.flavor }

/-- Modelled from the spec: equal (section 4.5) compares the native stored
field values only, slice by slice at the lowest common dimension; two
vectors in different coordinate systems are generally not equal because
their stored payloads differ in kind. -/
def Vec.equal (a b : Vec) : Prop :=
  a.az = b.az ∧
  (a.lon.isSome → b.lon.isSome → a.lon = b.lon) ∧
  (a.tem.isSome → b.tem.isSome → a.tem = b.tem)

/-- One numeric closeness test of isclose, |u - v| at most atol + rtol * |v|,
as documented for np.isclose (README). -/
def numClose (rtol atol u v : ℝ) : Prop := |u - v| ≤ atol + rtol * |v|

/-- Modelled from the spec: isclose (section 4.5) compares the fully
resolved Cartesian-equivalent coordinates within relative and absolute
tolerances, slice by slice at the lowest common dimension. -/
def Vec.isclose (rtol atol : ℝ) (a b : Vec) : Prop :=
  numClose rtol atol a.az.x b.az.x ∧
  numClose rtol atol a.az.y b.az.y ∧
  (a.lon.isSome → b.lon.isSome → numClose rtol atol a.zval b.zval) ∧
  (a.tem.isSome → b.tem.isSome → numClose rtol atol a.tval b.tval)

/-- Modelled from the spec: the built-in abs of a vector (README): rho for a
2D vector, mag for a 3D vector, tau (signed proper time) for a 4D vector. -/
def Vec.abs (v : Vec) : ℝ :=
  match v.lon, v.tem with
  | none, _ => v.az.rho
  | some _, none => Real.sqrt v.mag2
  | some _, some _ => v.tauval

/-- Modelled from the spec: the explicit projection to a geometric type,
the only way to strip momentum flavor (section 4.4 rule 3). -/
def Vec.toGeometric (v : Vec) : Vec :=
  { v with flavor := Flavor.geometric }

/-- gamma from beta for a boost, 1 / sqrt(1 - beta^2) (spec section 4.2). -/
def gammaOfBeta (beta : ℝ) : ℝ := 1 / Real.sqrt (1 - beta ^ 2)

/-- beta from gamma for a boost, sqrt(1 - 1 / gamma^2). -/
def betaOfGamma (gamma : ℝ) : ℝ := Real.sqrt (1 - 1 / gamma ^ 2)

/-- The active Lorentz boost along x with the given beta and gamma. -/
def boostXCore (beta gamma : ℝ) (v : Vec) : Vec :=
  { az := Azimuthal.xy (gamma * (v.az.x + beta * v.tval)) v.az.y
    lon := some (Longitudinal.z v.zval)
    tem := some (Temporal.t (gamma * (v.tval + beta * v.az.x)))
    flavor := v.flavor }

/-- The active Lorentz boost along y with the given beta and gamma. -/
def boostYCore (beta gamma : ℝ) (v : Vec) : Vec :=
  { az := Azimuthal.xy v.az.x (gamma * (v.az.y + beta * v.tval))
    lon := some (Longitudinal.z v.zval)
    tem := some (Temporal.t (gamma * (v.tval + beta * v.az.y)))
    flavor := v.flavor }

/-- The active Lorentz boost along z with the given beta and gamma. -/
def boostZCore (beta gamma : ℝ) (v : Vec) : Vec :=
  { az := Azimuthal.xy v.az.x v.az.y
    lon := some (Longitudinal.z (gamma * (v.zval + beta * v.tval)))
    tem := some (Temporal.t (gamma * (v.tval + beta * v.zval)))
    flavor := v.flavor }

/-- Modelled from the spec: boostX (section 4.5 and README): exactly one of
beta or gamma may be supplied; supplying both, or neither, fails with an
argument error raised at the point of the call. -/
def Vec.boostX (v : Vec) (beta gamma : Option ℝ) : Except String Vec :=
  match beta, gamma with
  | some b, none => Except.ok (boostXCore b (gammaOfBeta b) v)
  | none, some g => Except.ok (boostXCore (betaOfGamma g) g v)
  | some _, some _ => Except.error "specify beta xor gamma, not both"
  | none, none => Except.error "specify beta xor gamma"

/-- Modelled from the spec: boostY, argument policy as for boostX. -/
def Vec.boostY (v : Vec) (beta gamma : Option ℝ) : Except String Vec :=
  match beta, gamma with
  | some b, none => Except.ok (boostYCore b (gammaOfBeta b) v)
  | none, some g => Except.ok (boostYCore (betaOfGamma g) g v)
  | some _, some _ => Except.error "specify beta xor gamma, not both"
  | none, none => Except.error "specify beta xor gamma"

/-- Modelled from the spec: boostZ, argument policy as for boostX. -/
def Vec.boostZ (v : Vec) (beta gamma : Option ℝ) : Except String Vec :=
  match beta, gamma with
  | some b, none => Except.ok (boostZCore b (gammaOfBeta b) v)
  | none, some g => Except.ok (boostZCore (betaOfGamma g) g v)
  | some _, some _ => Except.error "specify beta xor gamma, not both"
  | none, none => Except.error "specify beta xor gamma"

/-- Whether a boost call succeeded (ok) or raised an argument error. -/
def callOk : Except String Vec → Bool
  | Except.ok _ => true
  | Except.error _ => false

/-- Two candidate second operands agree below dimension d when they share the
azimuthal payload, the presence pattern of the optional payloads, and the
flavor, and additionally share the longitudinal payload when d is at least 3
and the temporal payload when d is at least 4.  When d is the other operand's
dimension, the slices allowed to differ are exactly the ones a demoting
operation discards. -/
def AgreeBelow (d : ℕ) (b1 b2 : Vec) : Prop :=
  b1.az = b2.az ∧ b1.lon.isSome = b2.lon.isSome ∧ b1.tem.isSome = b2.tem.isSome ∧
  (3 ≤ d → b1.lon = b2.lon) ∧ (4 ≤ d → b1.tem = b2.tem) ∧ b1.flavor = b2.flavor

/-- Claim C9: for every 4D vector, calling boostX, boostY or boostZ with
exactly one of beta or gamma succeeds, while supplying both or neither
fails with an argument error raised at the point of the call. -/
theorem boost_beta_xor_gamma (v : Vec) (beta gamma : Option ℝ) :
    callOk (v.boostX beta gamma) = (beta.isSome != gamma.isSome) ∧
    callOk (v.boostY beta gamma) = (beta.isSome != gamma.isSome) ∧
    callOk (v.boostZ beta gamma) = (beta.isSome != gamma.isSome) := by
  rcases beta with _ | b <;> rcases gamma with _ | g <;>
    simp [Vec.boostX, Vec.boostY, Vec.boostZ, callOk]

/-- Claim C4: momentum flavor is infectious: the result of a binary
arithmetic or geometric operation is momentum-flavored iff at least one
operand is, and the explicit projection to a geometric type strips the
flavor. -/
theorem momentum_flavor_infection (a b : Vec) :
    ((a.add b).flavor = Flavor.momentum ↔
      (a.flavor = Flavor.momentum ∨ b.flavor = Flavor.momentum)) ∧
    ((a.subtract b).flavor = Flavor.momentum ↔
      (a.flavor = Flavor.momentum ∨ b.flavor = Flavor.momentum)) ∧
    ((a.cross b).flavor = Flavor.momentum ↔
      (a.flavor = Flavor.momentum ∨ b.flavor = Flavor.momentum)) ∧
    (a.toGeometric).flavor = Flavor.geometric := by
  have hj : ∀ f g : Flavor,
      f.join g = Flavor.momentum ↔ (f = Flavor.momentum ∨ g = Flavor.momentum) := by
    intro f g
    cases f <;> cases g <;> simp [Flavor.join]
  exact ⟨hj a.flavor b.flavor, hj a.flavor b.flavor, hj a.flavor b.flavor, rfl⟩

/-- Claim C7: subtracting a lower-dimensional vector from a
higher-dimensional one imputes zero for the missing slices of the
lower-dimensional operand: (x=1, y=2, z=3, t=10) minus (x=1, y=2)
equals (x=0, y=0, z=3), a 3D vector with no temporal slice. -/
theorem subtract_imputes_zero :
    Vec.subtract
        ⟨Azimuthal.xy 1 2, some (Longitudinal.z 3), some (Temporal.t 10), Flavor.geometric⟩
        ⟨Azimuthal.xy 1 2, none, none, Flavor.geometric⟩ =
      ⟨Azimuthal.xy 0 0, some (Longitudinal.z 3), none, Flavor.geometric⟩ := by
  simp only [Vec.subtract, Vec.dim, Vec.zval, Longitudinal.zval, Azimuthal.x,
    Azimuthal.y, Flavor.join]
  norm_num

/-- Claim C6, counterexample: the claimed value (x=4, y=-1, z=-2) for the
cross product of (x=1, y=2, z=3) and (x=1, y=0, z=2) is not what the
right-hand-rule cross product gives: the y component is +1, not -1. -/
theorem cross_value_counterexample :
    Vec.cross ⟨Azimuthal.xy 1 2, some (Longitudinal.z 3), none, Flavor.geometric⟩
        ⟨Azimuthal.xy 1 0, some (Longitudinal.z 2), none, Flavor.geometric⟩ ≠
      ⟨Azimuthal.xy 4 (-1), some (Longitudinal.z (-2)), none, Flavor.geometric⟩ := by
  simp only [Vec.cross, Vec.zval, Longitudinal.zval, Azimuthal.x, Azimuthal.y,
    Flavor.join, ne_eq, Vec.mk.injEq, Azimuthal.xy.injEq]
  norm_num

/-- Claim C6, amended: the cross product always returns a strictly
3-dimensional vector with no temporal slice, even when an operand is 4D,
and (x=1, y=2, z=3) cross (x=1, y=0, z=2) equals (x=4, y=1, z=-2) by the
right-hand rule. -/
theorem cross_strictly_3d (a b : Vec) :
    (a.cross b).tem = none ∧ (a.cross b).dim = 3 ∧
    Vec.cross ⟨Azimuthal.xy 1 2, some (Longitudinal.z 3), none, Flavor.geometric⟩
        ⟨Azimuthal.xy 1 0, some (Longitudinal.z 2), none, Flavor.geometric⟩ =
      ⟨Azimuthal.xy 4 1, some (Longitudinal.z (-2)), none, Flavor.geometric⟩ := by
  refine ⟨rfl, rfl, ?_⟩
  simp only [Vec.cross, Vec.zval, Longitudinal.zval, Azimuthal.x, Azimuthal.y, Flavor.join]
  norm_num

/-- Claim C2: for every pair of vectors, of any dimensionality and any
coordinate kinds, add and dot are commutative both in numeric value and in
the output (dimension, coordinate kinds and flavor of the result, which are
all part of the returned structure). -/
theorem add_dot_commutative (a b : Vec) :
    a.add b = b.add a ∧ a.dot b = b.dot a := by
  constructor
  · rcases a with ⟨aaz, alon, atem, af⟩
    rcases b with ⟨baz, blon, btem, bf⟩
    simp only [Vec.add, Vec.mk.injEq]
    refine ⟨by rw [add_comm aaz.x, add_comm aaz.y], ?_, ?_, ?_⟩
    · rcases alon with _ | la <;> rcases blon with _ | lb <;> simp <;> ring_nf
    · rcases atem with _ | ta <;> rcases btem with _ | tb <;> simp <;> ring_nf
    · cases af <;> cases bf <;> rfl
  · have haz : azdot a.az b.az = azdot b.az a.az := by
      rcases ha : a.az with ⟨ax, ay⟩ | ⟨ar, ap⟩ <;> rcases hb : b.az with ⟨bx, by'⟩ | ⟨br, bp⟩ <;>
        simp [azdot, Azimuthal.x, Azimuthal.y, Real.cos_sub] <;> ring
    rcases a with ⟨aaz, alon, atem, af⟩
    rcases b with ⟨baz, blon, btem, bf⟩
    simp only [Vec.dot] at *
    rcases alon with _ | la <;> rcases blon with _ | lb <;>
      rcases atem with _ | ta <;> rcases btem with _ | tb <;>
        simp only [] <;> rw [haz] <;> ring

lemma dim_add (a b : Vec) : (a.add b).dim = min a.dim b.dim := by
  rcases a with ⟨aaz, alon, atem, af⟩
  rcases b with ⟨baz, blon, btem, bf⟩
  cases alon <;> cases atem <;> cases blon <;> cases btem <;>
    simp [Vec.add, Vec.dim]

lemma dim_subtract_demote (a b : Vec) (wfb : b.Wf) (h : a.dim ≤ b.dim) :
    (a.subtract b).dim = a.dim := by
  rcases a with ⟨aaz, alon, atem, af⟩
  rcases b with ⟨baz, blon, btem, bf⟩
  cases alon <;> cases atem <;> cases blon <;> cases btem <;>
    first
      | (simp [Vec.subtract, Vec.dim]; done)
      | (exact Option.noConfusion (wfb rfl))
      | (exfalso; simp [Vec.dim] at h)

lemma dim_subtract_impute (a b : Vec) (wfb : b.Wf) (h : b.dim < a.dim) :
    (a.subtract b).dim = min a.dim 3 := by
  rcases a with ⟨aaz, alon, atem, af⟩
  rcases b with ⟨baz, blon, btem, bf⟩
  cases alon <;> cases atem <;> cases blon <;> cases btem <;>
    first
      | (simp [Vec.subtract, Vec.dim]; done)
      | (exact Option.noConfusion (wfb rfl))
      | (exfalso; simp [Vec.dim] at h)

lemma add_agree (a b b2 : Vec) (wfa : a.Wf) (hag : AgreeBelow a.dim b b2) :
    a.add b = a.add b2 := by
  obtain ⟨haz, hls, hts, hlon3, htem4, hfl⟩ := hag
  rcases a with ⟨aaz, alon, atem, af⟩
  rcases b with ⟨baz, blon, btem, bf⟩
  rcases b2 with ⟨caz, clon, ctem, cf⟩
  dsimp only at haz hls hts hlon3 htem4 hfl wfa ⊢
  subst haz
  subst hfl
  cases alon <;> cases atem <;> cases blon <;> cases clon <;> cases btem <;> cases ctem <;>
    simp_all [Vec.add, Vec.Wf, Vec.dim, Vec.zval, Vec.tval, Vec.mag2]

lemma subtract_agree (a b b2 : Vec) (wfa : a.Wf) (hle : a.dim ≤ b.dim)
    (hag : AgreeBelow a.dim b b2) : a.subtract b = a.subtract b2 := by
  obtain ⟨haz, hls, hts, hlon3, htem4, hfl⟩ := hag
  rcases a with ⟨aaz, alon, atem, af⟩
  rcases b with ⟨baz, blon, btem, bf⟩
  rcases b2 with ⟨caz, clon, ctem, cf⟩
  dsimp only at haz hls hts hlon3 htem4 hfl wfa hle ⊢
  subst haz
  subst hfl
  cases alon <;> cases atem <;> cases blon <;> cases clon <;> cases btem <;> cases ctem <;>
    simp_all [Vec.subtract, Vec.Wf, Vec.dim, Vec.zval, Vec.tval, Vec.mag2]

lemma dot_agree (a b b2 : Vec) (wfa : a.Wf) (hag : AgreeBelow a.dim b b2) :
    a.dot b = a.dot b2 := by
  obtain ⟨haz, hls, hts, hlon3, htem4, hfl⟩ := hag
  rcases a with ⟨aaz, alon, atem, af⟩
  rcases b with ⟨baz, blon, btem, bf⟩
  rcases b2 with ⟨caz, clon, ctem, cf⟩
  dsimp only at haz hls hts hlon3 htem4 hfl wfa ⊢
  subst haz
  subst hfl
  cases alon <;> cases atem <;> cases blon <;> cases clon <;> cases btem <;> cases ctem <;>
    simp_all [Vec.dot, Vec.Wf, Vec.dim, Vec.zval, Vec.tval, Vec.mag2]

lemma equal_agree (a b b2 : Vec) (wfa : a.Wf) (hag : AgreeBelow a.dim b b2) :
    (a.equal b ↔ a.equal b2) := by
  obtain ⟨haz, hls, hts, hlon3, htem4, hfl⟩ := hag
  rcases a with ⟨aaz, alon, atem, af⟩
  rcases b with ⟨baz, blon, btem, bf⟩
  rcases b2 with ⟨caz, clon, ctem, cf⟩
  dsimp only at haz hls hts hlon3 htem4 hfl wfa ⊢
  subst haz
  subst hfl
  cases alon <;> cases atem <;> cases blon <;> cases clon <;> cases btem <;> cases ctem <;>
    simp_all [Vec.equal, Vec.Wf, Vec.dim]

lemma isclose_agree (a b b2 : Vec) (rtol atol : ℝ) (wfa : a.Wf)
    (hag : AgreeBelow a.dim b b2) :
    (a.isclose rtol atol b ↔ a.isclose rtol atol b2) := by
  obtain ⟨haz, hls, hts, hlon3, htem4, hfl⟩ := hag
  rcases a with ⟨aaz, alon, atem, af⟩
  rcases b with ⟨baz, blon, btem, bf⟩
  rcases b2 with ⟨caz, clon, ctem, cf⟩
  dsimp only at haz hls hts hlon3 htem4 hfl wfa ⊢
  subst haz
  subst hfl
  cases alon <;> cases atem <;> cases blon <;> cases clon <;> cases btem <;> cases ctem <;>
    simp_all [Vec.isclose, Vec.Wf, Vec.dim, Vec.zval, Vec.tval, Vec.mag2]

/-- Claim C3, counterexample: subtract does not demote to the minimum
dimension when its second operand is the lower-dimensional one:
(x=1, y=2, z=3, t=10) minus (x=1, y=2) has dimension 3, not min(4, 2) = 2
(the documented zero-imputation exception applies instead). -/
theorem demotion_counterexample :
    ¬ ((Vec.subtract
          ⟨Azimuthal.xy 1 2, some (Longitudinal.z 3), some (Temporal.t 10), Flavor.geometric⟩
          ⟨Azimuthal.xy 1 2, none, none, Flavor.geometric⟩).dim =
        min
          (Vec.dim ⟨Azimuthal.xy 1 2, some (Longitudinal.z 3), some (Temporal.t 10),
            Flavor.geometric⟩)
          (Vec.dim ⟨Azimuthal.xy 1 2, none, none, Flavor.geometric⟩)) := by
  simp [Vec.subtract, Vec.dim]

/-- Claim C3, amended: for well-formed vectors, the demoting operations add,
dot, equal and isclose, as well as subtract when the first operand has the
lower (or equal) dimension, compute at the minimum common dimension: the
dimension of an add result is min(dim a, dim b), and changing only the
discarded higher slices of the second operand (its longitudinal slice when
dim a is below 3, its temporal slice when dim a is below 4) leaves each
result unchanged.  Subtract with a strictly lower-dimensional second operand
is the documented exception: it imputes zeros and yields dimension
min(dim a, 3) instead of the minimum. -/
theorem demotion_amended (a b b2 : Vec) (rtol atol : ℝ) (wfa : a.Wf) (wfb : b.Wf)
    (hag : AgreeBelow a.dim b b2) :
    (a.add b).dim = min a.dim b.dim ∧
    (a.dim ≤ b.dim → (a.subtract b).dim = a.dim) ∧
    (b.dim < a.dim → (a.subtract b).dim = min a.dim 3) ∧
    a.add b = a.add b2 ∧
    a.dot b = a.dot b2 ∧
    (a.dim ≤ b.dim → a.subtract b = a.subtract b2) ∧
    (a.equal b ↔ a.equal b2) ∧
    (a.isclose rtol atol b ↔ a.isclose rtol atol b2) :=
  ⟨dim_add a b, dim_subtract_demote a b wfb, dim_subtract_impute a b wfb,
   add_agree a b b2 wfa hag, dot_agree a b b2 wfa hag,
   fun h => subtract_agree a b b2 wfa h hag,
   equal_agree a b b2 wfa hag, isclose_agree a b b2 rtol atol wfa hag⟩

/-- Witness for the amended claim C3, at a 2D first operand and two 4D second
operands that differ exactly in their discarded z and t slices. -/
theorem demotion_amended_witness :
    (Vec.add ⟨Azimuthal.xy 1 2, none, none, Flavor.geometric⟩
        ⟨Azimuthal.xy 3 4, some (Longitudinal.z 5), some (Temporal.t 20),
          Flavor.geometric⟩).dim =
      min (Vec.dim ⟨Azimuthal.xy 1 2, none, none, Flavor.geometric⟩)
        (Vec.dim ⟨Azimuthal.xy 3 4, some (Longitudinal.z 5), some (Temporal.t 20),
          Flavor.geometric⟩) ∧
    Vec.add ⟨Azimuthal.xy 1 2, none, none, Flavor.geometric⟩
        ⟨Azimuthal.xy 3 4, some (Longitudinal.z 5), some (Temporal.t 20), Flavor.geometric⟩ =
      Vec.add ⟨Azimuthal.xy 1 2, none, none, Flavor.geometric⟩
        ⟨Azimuthal.xy 3 4, some (Longitudinal.z 7), some (Temporal.t 9), Flavor.geometric⟩ := by
  have h := demotion_amended ⟨Azimuthal.xy 1 2, none, none, Flavor.geometric⟩
    ⟨Azimuthal.xy 3 4, some (Longitudinal.z 5), some (Temporal.t 20), Flavor.geometric⟩
    ⟨Azimuthal.xy 3 4, some (Longitudinal.z 7), some (Temporal.t 9), Flavor.geometric⟩
    (1e-5) (1e-8) (fun _ => rfl) (fun hc => Option.noConfusion hc)
    ⟨rfl, rfl, rfl, fun hc => absurd hc (by decide), fun hc => absurd hc (by decide), rfl⟩
  exact ⟨h.1, h.2.2.2.1⟩

lemma sqrt_eval {x c : ℝ} (hc : 0 ≤ c) (h : c ^ 2 = x) : Real.sqrt x = c := by
  rw [← h, Real.sqrt_sq hc]

/-- Claim C10: the built-in abs of a vector is dimension-dependent: it
returns rho for a 2D vector, mag for a 3D vector, and tau (with the signed
spacelike convention) for a 4D vector; in particular abs(x=3, y=4) = 5,
abs(x=1, y=2, z=2) = 3 and abs(x=3, y=3, z=3, t=6) = 3. -/
theorem abs_by_dimension (v : Vec) :
    (v.dim = 2 → v.abs = v.az.rho) ∧
    (v.dim = 3 → v.abs = Real.sqrt v.mag2) ∧
    (v.dim = 4 → v.abs = v.tauval) ∧
    Vec.abs ⟨Azimuthal.xy 3 4, none, none, Flavor.geometric⟩ = 5 ∧
    Vec.abs ⟨Azimuthal.xy 1 2, some (Longitudinal.z 2), none, Flavor.geometric⟩ = 3 ∧
    Vec.abs ⟨Azimuthal.xy 3 3, some (Longitudinal.z 3), some (Temporal.t 6),
      Flavor.geometric⟩ = 3 := by
  refine ⟨?_, ?_, ?_, ?_, ?_, ?_⟩
  · rcases v with ⟨vaz, vlon, vtem, vf⟩
    cases vlon <;> cases vtem <;> simp [Vec.abs, Vec.dim]
  · rcases v with ⟨vaz, vlon, vtem, vf⟩
    cases vlon <;> cases vtem <;> simp [Vec.abs, Vec.dim]
  · rcases v with ⟨vaz, vlon, vtem, vf⟩
    cases vlon <;> cases vtem <;> simp [Vec.abs, Vec.dim]
  · show Azimuthal.rho (Azimuthal.xy 3 4) = 5
    simp only [Azimuthal.rho]
    exact sqrt_eval (by norm_num) (by norm_num)
  · show Real.sqrt (Vec.mag2 _) = 3
    rw [show Vec.mag2 ⟨Azimuthal.xy 1 2, some (Longitudinal.z 2), none, Flavor.geometric⟩
        = 9 by simp [Vec.mag2, Vec.zval, Longitudinal.zval, Azimuthal.rho2]; norm_num]
    exact sqrt_eval (by norm_num) (by norm_num)
  · show Vec.tauval ⟨Azimuthal.xy 3 3, some (Longitudinal.z 3), some (Temporal.t 6),
      Flavor.geometric⟩ = 3
    rw [show Vec.tauval ⟨Azimuthal.xy 3 3, some (Longitudinal.z 3), some (Temporal.t 6),
        Flavor.geometric⟩ = tau_from_t 6 27 by
      simp [Vec.tauval, Temporal.tauval, Vec.mag2, Vec.zval, Longitudinal.zval,
        Azimuthal.rho2]
      norm_num]
    rw [tau_from_t, if_neg (by norm_num)]
    exact sqrt_eval (by norm_num) (by norm_num)

/-- Witness for claim C10, instantiating the dimension-dispatch clauses at
concrete 2D, 3D and 4D vectors. -/
theorem abs_by_dimension_witness :
    Vec.abs ⟨Azimuthal.rhophi 5 1, none, none, Flavor.momentum⟩ =
      Azimuthal.rho (Azimuthal.rhophi 5 1) ∧
    Vec.abs ⟨Azimuthal.xy 1 2, some (Longitudinal.z 2), none, Flavor.geometric⟩ =
      Real.sqrt (Vec.mag2 ⟨Azimuthal.xy 1 2, some (Longitudinal.z 2), none,
        Flavor.geometric⟩) ∧
    Vec.abs ⟨Azimuthal.xy 3 3, some (Longitudinal.z 3), some (Temporal.t 6),
        Flavor.geometric⟩ =
      Vec.tauval ⟨Azimuthal.xy 3 3, some (Longitudinal.z 3), some (Temporal.t 6),
        Flavor.geometric⟩ :=
  ⟨(abs_by_dimension ⟨Azimuthal.rhophi 5 1, none, none, Flavor.momentum⟩).1 rfl,
   (abs_by_dimension ⟨Azimuthal.xy 1 2, some (Longitudinal.z 2), none,
      Flavor.geometric⟩).2.1 rfl,
   (abs_by_dimension ⟨Azimuthal.xy 3 3, some (Longitudinal.z 3), some (Temporal.t 6),
      Flavor.geometric⟩).2.2.1 rfl⟩

lemma roundtrip_eq_abs (t mag2 : ℝ) (hm : 0 ≤ mag2) :
    t_from_tau (tau_from_t t mag2) mag2 = |t| := by
  unfold tau_from_t
  by_cases hlt : t ^ 2 - mag2 < 0
  · rw [if_pos hlt]
    have h1 : 0 < mag2 - t ^ 2 := by linarith
    have hs : 0 < Real.sqrt (mag2 - t ^ 2) := Real.sqrt_pos.mpr h1
    unfold t_from_tau
    rw [if_pos (by linarith : -Real.sqrt (mag2 - t ^ 2) < 0)]
    rw [neg_sq, Real.sq_sqrt h1.le, show mag2 - (mag2 - t ^ 2) = t ^ 2 by ring,
      Real.sqrt_sq_eq_abs]
  · rw [if_neg hlt]
    push_neg at hlt
    have hs : 0 ≤ Real.sqrt (t ^ 2 - mag2) := Real.sqrt_nonneg _
    unfold t_from_tau
    rw [if_neg (not_lt.mpr hs)]
    rw [Real.sq_sqrt (by linarith : 0 ≤ t ^ 2 - mag2),
      show t ^ 2 - mag2 + mag2 = t ^ 2 by ring, Real.sqrt_sq_eq_abs]

lemma tau_forgets_t_sign (t mag2 : ℝ) : tau_from_t (-t) mag2 = tau_from_t t mag2 := by
  unfold tau_from_t
  rw [neg_sq]

/-- Claim C1, counterexample: a wrong-direction timelike vector is not
truncated to 0 by the T to Tau to T round trip: with t = -5 and mag2 = 9
(timelike, 25 greater than 9), tau is 4 and the reconstructed t is 5, which
is neither 0 (the truncation the claim asserts) nor the original -5.  The
last conjunct records why no conversion out of Tau could do better: tau
retains no trace of the sign of t. -/
theorem lorentz_roundtrip_counterexample :
    t_from_tau (tau_from_t (-5) 9) 9 = 5 ∧ (5 : ℝ) ≠ 0 ∧ (5 : ℝ) ≠ -5 ∧
    tau_from_t (-5) 9 = tau_from_t 5 9 := by
  refine ⟨?_, by norm_num, by norm_num, tau_forgets_t_sign 5 9⟩
  rw [roundtrip_eq_abs (-5) 9 (by norm_num)]
  norm_num

/-- Claim C1, amended: for a 4D vector stored with temporal kind T,
tau = sign(t^2 - mag^2) * sqrt(abs(t^2 - mag^2)), so a spacelike vector
(mag2 greater than t^2) has negative tau; converting T to Tau and back
reproduces the original t whenever t is non-negative, while any vector with
negative t (in particular a wrong-direction timelike one) round-trips to
-t, its absolute value, rather than to 0; the vector (x=10, y=0, z=0, t=1)
has tau = -sqrt(99), approximately -9.95, and round-trips back to t = 1. -/
theorem lorentz_tau_roundtrip_amended (t mag2 : ℝ) (hm : 0 ≤ mag2) :
    (t ^ 2 < mag2 → tau_from_t t mag2 < 0) ∧
    (0 ≤ t → t_from_tau (tau_from_t t mag2) mag2 = t) ∧
    (t < 0 → t_from_tau (tau_from_t t mag2) mag2 = -t) ∧
    tau_from_t 1 100 = -Real.sqrt 99 ∧
    (-9.96 < tau_from_t 1 100 ∧ tau_from_t 1 100 < -9.94) ∧
    t_from_tau (tau_from_t 1 100) 100 = 1 := by
  have hconc : tau_from_t 1 100 = -Real.sqrt 99 := by
    rw [tau_from_t, if_pos (by norm_num)]
    norm_num
  refine ⟨?_, ?_, ?_, hconc, ⟨?_, ?_⟩, ?_⟩
  · intro h
    rw [tau_from_t, if_pos (by linarith)]
    exact neg_neg_iff_pos.mpr (Real.sqrt_pos.mpr (by linarith))
  · intro ht
    rw [roundtrip_eq_abs t mag2 hm, abs_of_nonneg ht]
  · intro ht
    rw [roundtrip_eq_abs t mag2 hm, abs_of_neg ht]
  · rw [hconc]
    have : Real.sqrt 99 < 9.96 := by
      rw [Real.sqrt_lt' (by norm_num)]
      norm_num
    linarith
  · rw [hconc]
    have : (9.94 : ℝ) < Real.sqrt 99 := by
      rw [Real.lt_sqrt (by norm_num)]
      norm_num
    linarith
  · rw [roundtrip_eq_abs 1 100 (by norm_num)]
    norm_num

/-- Witness for the amended claim C1 at the spacelike vector of the claim:
t = 1, mag2 = 100. -/
theorem lorentz_tau_roundtrip_amended_witness :
    tau_from_t 1 100 < 0 ∧ t_from_tau (tau_from_t 1 100) 100 = 1 :=
  ⟨(lorentz_tau_roundtrip_amended 1 100 (by norm_num)).1 (by norm_num),
   (lorentz_tau_roundtrip_amended 1 100 (by norm_num)).2.1 (by norm_num)⟩

/-- Claim C8: the eta accessor on a vector stored with longitudinal kind Z
is total (it is a function into the NaN/infinity/finite value lattice and
never raises): a NaN z gives NaN; rho = 0 with z nonzero gives a signed
infinity by the sign of z; rho = 0 with z = 0 gives NaN; and a nonzero rho
with finite z falls through to the finite formula. -/
theorem eta_total_special_rules (rho zc : ℝ) :
    eta_from_z rho FP.nan = FP.nan ∧
    eta_from_z 0 (FP.fin 0) = FP.nan ∧
    (0 < zc → eta_from_z 0 (FP.fin zc) = FP.pinf) ∧
    (zc < 0 → eta_from_z 0 (FP.fin zc) = FP.ninf) ∧
    (rho ≠ 0 → eta_from_z rho (FP.fin zc) = FP.fin (eta_fin rho zc)) := by
  refine ⟨rfl, by simp [eta_from_z], ?_, ?_, ?_⟩
  · intro h
    simp [eta_from_z, ne_of_gt h, h]
  · intro h
    simp [eta_from_z, ne_of_lt h, not_lt.mpr h.le]
  · intro h
    simp only [eta_from_z, if_neg h]

/-- Witness for claim C8 at concrete singular inputs: z = 1 and z = -1 at
rho = 0 give the two signed infinities, and rho = 2 with z = 1 is finite. -/
theorem eta_total_special_rules_witness :
    eta_from_z 0 (FP.fin 1) = FP.pinf ∧
    eta_from_z 0 (FP.fin (-1)) = FP.ninf ∧
    eta_from_z 2 (FP.fin 1) = FP.fin (eta_fin 2 1) :=
  ⟨(eta_total_special_rules 0 1).2.2.1 (by norm_num),
   (eta_total_special_rules 0 (-1)).2.2.2.1 (by norm_num),
   (eta_total_special_rules 2 1).2.2.2.2 (by norm_num)⟩

lemma cos_sin_taylor12 (x : ℝ) (hx : |x| ≤ 1) :
    |Real.cos x -
        (1 - x ^ 2 / 2 + x ^ 4 / 24 - x ^ 6 / 720 + x ^ 8 / 40320 - x ^ 10 / 3628800)| ≤
      |x| ^ 12 * (13 / 5748019200) ∧
    |Real.sin x -
        (x - x ^ 3 / 6 + x ^ 5 / 120 - x ^ 7 / 5040 + x ^ 9 / 362880 - x ^ 11 / 39916800)| ≤
      |x| ^ 12 * (13 / 5748019200) := by
  have habs : Complex.abs ((x : ℂ) * Complex.I) = |x| := by
    simp [map_mul, Complex.abs_ofReal, Complex.abs_I]
  have hb := Complex.exp_bound (x := (x : ℂ) * Complex.I) (by rw [habs]; exact hx)
    (n := 12) (by norm_num)
  have h2 : Complex.I ^ 2 = -1 := Complex.I_sq
  have h3 : Complex.I ^ 3 = -Complex.I := by
    rw [show (3 : ℕ) = 2 + 1 from rfl, pow_add, h2]; ring
  have h4 : Complex.I ^ 4 = 1 := by
    rw [show (4 : ℕ) = 2 + 2 from rfl, pow_add, h2]; ring
  have h5 : Complex.I ^ 5 = Complex.I := by
    rw [show (5 : ℕ) = 4 + 1 from rfl, pow_add, h4]; ring
  have h6 : Complex.I ^ 6 = -1 := by
    rw [show (6 : ℕ) = 4 + 2 from rfl, pow_add, h4, h2]; ring
  have h7 : Complex.I ^ 7 = -Complex.I := by
    rw [show (7 : ℕ) = 4 + 3 from rfl, pow_add, h4, h3]; ring
  have h8 : Complex.I ^ 8 = 1 := by
    rw [show (8 : ℕ) = 4 + 4 from rfl, pow_add, h4]; ring
  have h9 : Complex.I ^ 9 = Complex.I := by
    rw [show (9 : ℕ) = 8 + 1 from rfl, pow_add, h8]; ring
  have h10 : Complex.I ^ 10 = -1 := by
    rw [show (10 : ℕ) = 8 + 2 from rfl, pow_add, h8, h2]; ring
  have h11 : Complex.I ^ 11 = -Complex.I := by
    rw [show (11 : ℕ) = 8 + 3 from rfl, pow_add, h8, h3]; ring
  have hterm : ∀ m : ℕ, ((x : ℂ) * Complex.I) ^ m / (m.factorial : ℂ) =
      ((x : ℂ) ^ m / (m.factorial : ℂ)) * Complex.I ^ m := by
    intro m; rw [mul_pow]; ring
  have hS : (∑ m ∈ Finset.range 12, ((x : ℂ) * Complex.I) ^ m / (m.factorial : ℂ)) =
      ((1 - x ^ 2 / 2 + x ^ 4 / 24 - x ^ 6 / 720 + x ^ 8 / 40320 - x ^ 10 / 3628800 : ℝ) : ℂ) +
      ((x - x ^ 3 / 6 + x ^ 5 / 120 - x ^ 7 / 5040 + x ^ 9 / 362880 -
          x ^ 11 / 39916800 : ℝ) : ℂ) * Complex.I := by
    simp only [Finset.sum_range_succ, Finset.sum_range_zero, hterm, pow_zero, pow_one,
      h2, h3, h4, h5, h6, h7, h8, h9, h10, h11,
      show Nat.factorial 0 = 1 from rfl, show Nat.factorial 1 = 1 from rfl,
      show Nat.factorial 2 = 2 from rfl, show Nat.factorial 3 = 6 from rfl,
      show Nat.factorial 4 = 24 from rfl, show Nat.factorial 5 = 120 from rfl,
      show Nat.factorial 6 = 720 from rfl, show Nat.factorial 7 = 5040 from rfl,
      show Nat.factorial 8 = 40320 from rfl, show Nat.factorial 9 = 362880 from rfl,
      show Nat.factorial 10 = 3628800 from rfl, show Nat.factorial 11 = 39916800 from rfl]
    push_cast
    ring
  rw [hS] at hb
  rw [habs] at hb
  have hre : (Complex.exp ((x : ℂ) * Complex.I) -
      (((1 - x ^ 2 / 2 + x ^ 4 / 24 - x ^ 6 / 720 + x ^ 8 / 40320 -
          x ^ 10 / 3628800 : ℝ) : ℂ) +
        ((x - x ^ 3 / 6 + x ^ 5 / 120 - x ^ 7 / 5040 + x ^ 9 / 362880 -
          x ^ 11 / 39916800 : ℝ) : ℂ) * Complex.I)).re =
      Real.cos x -
        (1 - x ^ 2 / 2 + x ^ 4 / 24 - x ^ 6 / 720 + x ^ 8 / 40320 - x ^ 10 / 3628800) := by
    simp only [Complex.sub_re, Complex.add_re, Complex.mul_re, Complex.ofReal_re,
      Complex.ofReal_im, Complex.I_re, Complex.I_im, Complex.exp_ofReal_mul_I_re,
      mul_zero, zero_mul, mul_one, sub_zero, zero_sub, add_zero]
  have him : (Complex.exp ((x : ℂ) * Complex.I) -
      (((1 - x ^ 2 / 2 + x ^ 4 / 24 - x ^ 6 / 720 + x ^ 8 / 40320 -
          x ^ 10 / 3628800 : ℝ) : ℂ) +
        ((x - x ^ 3 / 6 + x ^ 5 / 120 - x ^ 7 / 5040 + x ^ 9 / 362880 -
          x ^ 11 / 39916800 : ℝ) : ℂ) * Complex.I)).im =
      Real.sin x -
        (x - x ^ 3 / 6 + x ^ 5 / 120 - x ^ 7 / 5040 + x ^ 9 / 362880 -
          x ^ 11 / 39916800) := by
    simp only [Complex.sub_im, Complex.add_im, Complex.mul_im, Complex.ofReal_re,
      Complex.ofReal_im, Complex.I_re, Complex.I_im, Complex.exp_ofReal_mul_I_im,
      mul_zero, zero_mul, mul_one, zero_add, add_zero]
  constructor
  · rw [← hre]
    refine le_trans (Complex.abs_re_le_abs _) (le_trans hb (le_of_eq ?_))
    rw [show Nat.factorial 12 = 479001600 from rfl]
    push_cast
    norm_num
  · rw [← him]
    refine le_trans (Complex.abs_im_le_abs _) (le_trans hb (le_of_eq ?_))
    rw [show Nat.factorial 12 = 479001600 from rfl]
    push_cast
    norm_num

lemma cos_phi0_close : |Real.cos 0.9272952180016122 - 3 / 5| ≤ 1e-8 := by
  have hx : |(0.9272952180016122 : ℝ)| ≤ 1 := by
    rw [abs_of_nonneg (by norm_num)]
    norm_num
  have h := (cos_sin_taylor12 0.9272952180016122 hx).1
  rw [abs_of_nonneg (by norm_num : (0 : ℝ) ≤ 0.9272952180016122)] at h
  have h2 : (0.9272952180016122 : ℝ) ^ 12 * (13 / 5748019200) ≤ 1e-9 := by norm_num
  have h3 : |(1 - (0.9272952180016122 : ℝ) ^ 2 / 2 + 0.9272952180016122 ^ 4 / 24 -
      0.9272952180016122 ^ 6 / 720 + 0.9272952180016122 ^ 8 / 40320 -
      0.9272952180016122 ^ 10 / 3628800) - 3 / 5| ≤ 9e-9 := by
    rw [abs_le]
    constructor <;> norm_num
  calc |Real.cos 0.9272952180016122 - 3 / 5| ≤
      |Real.cos 0.9272952180016122 -
        (1 - (0.9272952180016122 : ℝ) ^ 2 / 2 + 0.9272952180016122 ^ 4 / 24 -
          0.9272952180016122 ^ 6 / 720 + 0.9272952180016122 ^ 8 / 40320 -
          0.9272952180016122 ^ 10 / 3628800)| +
      |(1 - (0.9272952180016122 : ℝ) ^ 2 / 2 + 0.9272952180016122 ^ 4 / 24 -
          0.9272952180016122 ^ 6 / 720 + 0.9272952180016122 ^ 8 / 40320 -
          0.9272952180016122 ^ 10 / 3628800) - 3 / 5| := abs_sub_le _ _ _
    _ ≤ 1e-9 + 9e-9 := add_le_add (le_trans h h2) h3
    _ ≤ 1e-8 := by norm_num

lemma sin_phi0_close : |Real.sin 0.9272952180016122 - 4 / 5| ≤ 1e-8 := by
  have hx : |(0.9272952180016122 : ℝ)| ≤ 1 := by
    rw [abs_of_nonneg (by norm_num)]
    norm_num
  have h := (cos_sin_taylor12 0.9272952180016122 hx).2
  rw [abs_of_nonneg (by norm_num : (0 : ℝ) ≤ 0.9272952180016122)] at h
  have h2 : (0.9272952180016122 : ℝ) ^ 12 * (13 / 5748019200) ≤ 1e-9 := by norm_num
  have h3 : |((0.9272952180016122 : ℝ) - 0.9272952180016122 ^ 3 / 6 +
      0.9272952180016122 ^ 5 / 120 - 0.9272952180016122 ^ 7 / 5040 +
      0.9272952180016122 ^ 9 / 362880 - 0.9272952180016122 ^ 11 / 39916800) - 4 / 5| ≤
      9e-9 := by
    rw [abs_le]
    constructor <;> norm_num
  calc |Real.sin 0.9272952180016122 - 4 / 5| ≤
      |Real.sin 0.9272952180016122 -
        ((0.9272952180016122 : ℝ) - 0.9272952180016122 ^ 3 / 6 +
          0.9272952180016122 ^ 5 / 120 - 0.9272952180016122 ^ 7 / 5040 +
          0.9272952180016122 ^ 9 / 362880 - 0.9272952180016122 ^ 11 / 39916800)| +
      |((0.9272952180016122 : ℝ) - 0.9272952180016122 ^ 3 / 6 +
          0.9272952180016122 ^ 5 / 120 - 0.9272952180016122 ^ 7 / 5040 +
          0.9272952180016122 ^ 9 / 362880 - 0.9272952180016122 ^ 11 / 39916800) - 4 / 5| :=
      abs_sub_le _ _ _
    _ ≤ 1e-9 + 9e-9 := add_le_add (le_trans h h2) h3
    _ ≤ 1e-8 := by norm_num

/-- Claim C5: equal compares only the native stored fields, so the Cartesian
vector (x=3, y=4) and the polar vector (rho=5, phi=0.9272952180016122) are
not equal even though they represent the same point; isclose compares the
resolved Cartesian-equivalent coordinates within the default tolerances
rtol = 1e-5 and atol = 1e-8, and on this pair it holds. -/
theorem equal_vs_isclose :
    Vec.isclose 1e-5 1e-8 ⟨Azimuthal.xy 3 4, none, none, Flavor.geometric⟩
      ⟨Azimuthal.rhophi 5 0.9272952180016122, none, none, Flavor.geometric⟩ ∧
    ¬ Vec.equal ⟨Azimuthal.xy 3 4, none, none, Flavor.geometric⟩
      ⟨Azimuthal.rhophi 5 0.9272952180016122, none, none, Flavor.geometric⟩ := by
  constructor
  · have hc := abs_le.mp cos_phi0_close
    have hs := abs_le.mp sin_phi0_close
    refine ⟨?_, ?_, fun h => by simp at h, fun h => by simp at h⟩
    · show |(3 : ℝ) - 5 * Real.cos 0.9272952180016122| ≤
        1e-8 + 1e-5 * |5 * Real.cos 0.9272952180016122|
      have hpos : (0 : ℝ) < 5 * Real.cos 0.9272952180016122 := by
        nlinarith [hc.1]
      rw [abs_of_pos hpos, abs_le]
      constructor <;> nlinarith [hc.1, hc.2]
    · show |(4 : ℝ) - 5 * Real.sin 0.9272952180016122| ≤
        1e-8 + 1e-5 * |5 * Real.sin 0.9272952180016122|
      have hpos : (0 : ℝ) < 5 * Real.sin 0.9272952180016122 := by
        nlinarith [hs.1]
      rw [abs_of_pos hpos, abs_le]
      constructor <;> nlinarith [hs.1, hs.2]
  · intro h
    exact Azimuthal.noConfusion h.1

end VectorSpec
